import Mathlib

/-!
Verification of the aws-web local dashboard backend.

The Go backend is shallowly embedded as Lean definitions:

* Go strings are Lean `String`; the string helpers used by the backend
  (ToLower, Contains, Split, Trim, TrimPrefix, Join) are modelled
  character-wise on `String.data`, which coincides with the byte-wise Go
  behaviour on the ASCII inputs the backend works with.
* The AWS CLI executor (`awscli.Executor.RunJSON` followed by
  `json.Unmarshal` into the expected response struct) is modelled as a
  function `ExecFn` from the CLI argument list to either an error message
  or an already-parsed payload `ExecOut`; a payload of the wrong shape
  models a JSON unmarshal failure.
* Go functions returning `(T, error)` are modelled as `T × Option String`
  (`none` = nil error); the zero value `types.ServiceResources{}` is
  `emptySR`.
* The nondeterministic completion order of the per-region worker
  goroutines (the order results are received from the channel) is made
  explicit as an `arrival` list parameter; faithfulness requires it to be
  a permutation of the enumerated region list, which the theorems
  hypothesise.
* `float64` amounts are modelled as `ℚ`; wall-clock time is `Nat`.
-/

namespace AwsWeb

/-- Character-wise lower casing, modelling `strings.ToLower` on the ASCII
strings handled by the backend. -/
def lowerStr (s : String) : String := ⟨s.data.map Char.toLower⟩

/-- List-of-characters prefix test (models byte-wise prefix comparison). -/
def isPrefixChars : List Char → List Char → Bool
  | [], _ => true
  | _ :: _, [] => false
  | p :: ps, c :: cs => p == c && isPrefixChars ps cs

/-- Substring occurrence on character lists. -/
def containsChars (l pat : List Char) : Bool :=
  isPrefixChars pat l ||
    match l with
    | [] => false
    | _ :: rest => containsChars rest pat

/-- Models `strings.Contains s pat`. -/
def containsSub (s pat : String) : Bool := containsChars s.data pat.data

/-- Split a character list at a separator; mirrors `strings.Split`
(including the behaviour that an empty input yields one empty field). -/
def splitChars (sep : Char) (l : List Char) : List (List Char) :=
  match l with
  | [] => [[]]
  | c :: rest =>
    let r := splitChars sep rest
    if c == sep then [] :: r
    else
      match r with
      | [] => [[c]]
      | h :: t => (c :: h) :: t

/-- Models `strings.Split s "/"`. -/
def splitOnSlash (s : String) : List String := (splitChars '/' s.data).map (⟨·⟩)

/-- Models `strings.TrimPrefix s pre`. -/
def dropPrefixStr (pre s : String) : String :=
  if isPrefixChars pre.data s.data then ⟨s.data.drop pre.data.length⟩ else s

/-- Models `strings.Trim s "/"`. -/
def trimSlashes (s : String) : String :=
  ⟨((s.data.dropWhile (· == '/')).reverse.dropWhile (· == '/')).reverse⟩

/-! ## Data model (internal/types/types.go) -/

/-- Embeds `types.EC2Instance`. -/
structure EC2Instance where
  instanceId : String := ""
  name : String := ""
  state : String := ""
  instanceType : String := ""
  availabilityZone : String := ""
  privateIp : String := ""
  publicIp : String := ""
  region : String := ""
deriving DecidableEq

/-- Embeds `types.VPC`. -/
structure VPC where
  vpcId : String := ""
  name : String := ""
  cidrBlock : String := ""
  state : String := ""
  isDefault : Bool := false
  region : String := ""
deriving DecidableEq

/-- Embeds `types.ElasticIP`. -/
structure ElasticIP where
  allocationId : String := ""
  publicIp : String := ""
  associationId : String := ""
  instanceId : String := ""
  networkInterfaceId : String := ""
  domain : String := ""
  region : String := ""
deriving DecidableEq

/-- Embeds `types.S3Bucket`. -/
structure S3Bucket where
  name : String := ""
  creationDate : String := ""
  region : String := ""
deriving DecidableEq

/-- Embeds `types.RekognitionCollection`. -/
structure RekognitionCollection where
  collectionId : String := ""
  faceModelVersion : String := ""
  region : String := ""
deriving DecidableEq

/-- Embeds `types.RDSInstance`. -/
structure RDSInstance where
  dbInstanceIdentifier : String := ""
  engine : String := ""
  status : String := ""
  dbInstanceClass : String := ""
  availabilityZone : String := ""
  endpoint : String := ""
  region : String := ""
deriving DecidableEq

/-- Embeds `types.ServiceResources`.  The JSON `omitempty` semantics mean an empty
`message` string is the absent message field on the wire. -/
structure ServiceResources where
  service : String := ""
  ec2 : List EC2Instance := []
  vpcs : List VPC := []
  elasticIps : List ElasticIP := []
  s3Buckets : List S3Bucket := []
  rekognitionCollections : List RekognitionCollection := []
  rdsInstances : List RDSInstance := []
  message : String := ""
deriving DecidableEq

/-- The Go zero value `types.ServiceResources{}`. -/
def emptySR : ServiceResources := {}

/-- Embeds `types.ResourceSummary`. -/
structure ResourceSummary where
  service : String := ""
  displayName : String := ""
  resourceType : String := ""
  count : Nat := 0
deriving DecidableEq

/-! ## Executor model -/

/-- A tag in an `ec2 describe-instances` response. -/
structure Ec2Tag where
  key : String := ""
  value : String := ""
deriving DecidableEq

/-- The `State` object of a raw EC2 instance description. -/
structure Ec2InstanceState where
  name : String := ""
deriving DecidableEq

/-- The `Placement` object of a raw EC2 instance description. -/
structure Ec2Placement where
  availabilityZone : String := ""
deriving DecidableEq

/-- A raw instance inside an `ec2 describe-instances` reservation. -/
structure Ec2RawInstance where
  instanceId : String := ""
  instanceType : String := ""
  privateIp : String := ""
  publicIp : String := ""
  state : Ec2InstanceState := {}
  placement : Ec2Placement := {}
  tags : List Ec2Tag := []
deriving DecidableEq

/-- A reservation in an `ec2 describe-instances` response. -/
structure Ec2Reservation where
  instances : List Ec2RawInstance := []
deriving DecidableEq

/-- Parsed `ec2 describe-instances` output (`ec2DescribeInstancesOutput`). -/
structure Ec2DescribeInstancesOutput where
  reservations : List Ec2Reservation := []
deriving DecidableEq

/-- One region entry of an `ec2 describe-regions` response. -/
structure RegionEntry where
  regionName : String := ""
  optInStatus : String := ""
deriving DecidableEq

/-- Parsed `ec2 describe-regions` output. -/
structure DescribeRegionsOutput where
  regions : List RegionEntry := []
deriving DecidableEq

/-- Parsed `rekognition list-collections` output
(`rekognitionListCollectionsOutput`). -/
structure RekognitionListCollectionsOutput where
  collectionIds : List String := []
  faceModelVersions : List String := []
deriving DecidableEq

/-- A successfully parsed executor payload.  A payload of the wrong variant
for a given call models a `json.Unmarshal` failure on that call. -/
inductive ExecOut where
  | ec2Instances (o : Ec2DescribeInstancesOutput)
  | regionList (o : DescribeRegionsOutput)
  | rekognitionCollections (o : RekognitionListCollectionsOutput)
deriving DecidableEq

/-- The AWS CLI executor: argument list to error-or-parsed-payload. -/
abbrev ExecFn := List String → Except String ExecOut

/-! ## Skippable-error classification (main.go, isAuthError) -/

/-- Embeds `isAuthError` from `cmd/server/main.go`: a nil error (`none`) is never
skippable; otherwise the lower-cased message is matched against four fixed
substrings. -/
def isAuthError : Option String → Bool
  | none => false
  | some msg =>
    let m := lowerStr msg
    containsSub m "authfailure" ||
      containsSub m "not able to validate the provided access credentials" ||
      containsSub m "invalidclienttokenid" ||
      containsSub m "could not connect to the endpoint url"

/-! ## Region enumeration (main.go, listRegions) -/

/-- Embeds `listRegions`: one executor call to `ec2 describe-regions --all-regions`;
keeps region names that are nonempty and not `not-opted-in`
(`strings.EqualFold` modelled as lower-cased equality). -/
def listRegions (exec : ExecFn) : Except String (List String) :=
  match exec ["ec2", "describe-regions", "--all-regions"] with
  | .error e => .error e
  | .ok (.regionList payload) =>
      .ok (payload.regions.filterMap fun r =>
        if r.regionName = "" then none
        else if lowerStr r.optInStatus = "not-opted-in" then none
        else some r.regionName)
  | .ok _ => .error "failed to parse describe-regions output"

/-! ## EC2 fetches (main.go) -/

/-- The argument list built by `getEC2InstancesSingleRegion`. -/
def ec2InstanceArgs (region : String) : List String :=
  if region ≠ "" then ["ec2", "describe-instances", "--region", region]
  else ["ec2", "describe-instances"]

/-- Projection of one raw instance into `types.EC2Instance`: the name is the
value of the first tag with key `Name`; when the requested region is empty the
region is derived from the availability zone by dropping its final character
(`az[:len(az)-1]`, only when `len(az) > 1`). -/
def projectEc2Instance (region : String) (inst : Ec2RawInstance) : EC2Instance :=
  let name :=
    match inst.tags.find? (fun t => t.key == "Name") with
    | some t => t.value
    | none => ""
  let az := inst.placement.availabilityZone
  let instRegion :=
    if region = "" ∧ az ≠ "" ∧ az.data.length > 1 then (⟨az.data.dropLast⟩ : String)
    else region
  { instanceId := inst.instanceId
    name := name
    state := inst.state.name
    instanceType := inst.instanceType
    availabilityZone := az
    privateIp := inst.privateIp
    publicIp := inst.publicIp
    region := instRegion }

/-- Embeds `getEC2InstancesSingleRegion`: one executor call; the second component of
the result is the list of executor invocations performed (always exactly the
one argument list). -/
def getEC2InstancesSingleRegion (exec : ExecFn) (region : String) :
    (ServiceResources × Option String) × List (List String) :=
  let args := ec2InstanceArgs region
  match exec args with
  | .error e => ((emptySR, some e), [args])
  | .ok (.ec2Instances resp) =>
      let instances := resp.reservations.flatMap fun rsv =>
        rsv.instances.map (projectEc2Instance region)
      (({ service := "ec2", ec2 := instances }, none), [args])
  | .ok _ => ((emptySR, some "failed to parse describe-instances output"), [args])

/-- The result-channel drain loop shared by every `...AllRegions` function:
successful results append their records (projected by `proj`), skippable
errors append the region name to the skip list, and the first non-skippable
error aborts the whole aggregation. -/
def drainResults {α : Type} (proj : ServiceResources → List α) :
    List (String × (ServiceResources × Option String)) → List α → List String →
    Except String (List α × List String)
  | [], acc, skipped => .ok (acc, skipped)
  | (region, (res, errOpt)) :: rest, acc, skipped =>
    match errOpt with
    | some e =>
        if isAuthError (some e) then drainResults proj rest acc (skipped ++ [region])
        else .error e
    | none => drainResults proj rest (acc ++ proj res) skipped

/-- The worker projection used by `getEC2InstancesAllRegions` (`res.EC2`). -/
def ec2Proj (res : ServiceResources) : List EC2Instance := res.ec2

/-- The aggregate diagnostic message: empty when no region was skipped,
otherwise the fixed prefix followed by the skipped names joined by
comma-space (`strings.Join(skipped, ", ")`). -/
def skipMessage (skipped : List String) : String :=
  if skipped.length > 0 then
    "Skipped regions due to authentication errors: " ++ String.intercalate ", " skipped
  else ""

/-- Embeds `getEC2InstancesAllRegions`: enumerate regions (one executor call), run
one single-region fetch per region, drain the results in channel-completion
order `arrival`, and assemble the aggregate. -/
def getEC2InstancesAllRegions (exec : ExecFn) (arrival : List String) :
    ServiceResources × Option String :=
  match listRegions exec with
  | .error e => (emptySR, some e)
  | .ok _regions =>
      match drainResults ec2Proj
          (arrival.map fun r => (r, (getEC2InstancesSingleRegion exec r).1)) [] [] with
      | .error e => (emptySR, some e)
      | .ok (acc, skipped) =>
          ({ service := "ec2", ec2 := acc, message := skipMessage skipped }, none)

/-- Embeds `getEC2Instances`: dispatch on the region selector. -/
def getEC2Instances (exec : ExecFn) (arrival : List String) (region : String) :
    ServiceResources × Option String :=
  if lowerStr region = "all" then getEC2InstancesAllRegions exec arrival
  else (getEC2InstancesSingleRegion exec region).1

/-! ## Rekognition single-region fetch (main.go) -/

/-- The argument list built by `getRekognitionCollectionsSingleRegion`. -/
def rekognitionArgs (region : String) : List String :=
  if region ≠ "" then ["rekognition", "list-collections", "--region", region]
  else ["rekognition", "list-collections"]

/-- Embeds `getRekognitionCollectionsSingleRegion`: pairs the i-th collection id
with the i-th face model version when present, and with the empty string when
`FaceModelVersions` is shorter (`if i < len(resp.FaceModelVersions)`). -/
def getRekognitionCollectionsSingleRegion (exec : ExecFn) (region : String) :
    (ServiceResources × Option String) × List (List String) :=
  let args := rekognitionArgs region
  match exec args with
  | .error e => ((emptySR, some e), [args])
  | .ok (.rekognitionCollections resp) =>
      let collections := resp.collectionIds.enum.map fun p =>
        ({ collectionId := p.2
           faceModelVersion := resp.faceModelVersions.getD p.1 ""
           region := region } : RekognitionCollection)
      (({ service := "rekognition", rekognitionCollections := collections }, none), [args])
  | .ok _ => ((emptySR, some "failed to parse list-collections output"), [args])

/-! ## TTL cache (internal/cache) -/

/-- One cache entry (`entry[V]`): the stored value and its absolute expiry
time (`insertion time + TTL`). -/
structure CacheEntry (V : Type) where
  value : V
  expiresAt : Nat
deriving DecidableEq

/-- Embeds `cache.Cache[V]`: a keyed store with a fixed TTL.  The Go map is
modelled as an association list whose first match is the live binding. -/
structure Cache (V : Type) where
  data : List (String × CacheEntry V) := []
  ttl : Nat
deriving DecidableEq

/-- Embeds `Cache.Get` at wall-clock time `now`: absent keys and entries whose
expiry time lies strictly in the past (`time.Now().After(expiresAt)`)
read as not-found; the entry itself is never removed by a read. -/
def Cache.get {V : Type} (c : Cache V) (now : Nat) (key : String) : Option V :=
  match c.data.lookup key with
  | none => none
  | some e => if e.expiresAt < now then none else some e.value

/-- Embeds `Cache.Set` at time `now`: overwrite the binding for `key` with expiry
`now + ttl` (Go map assignment replaces the previous entry). -/
def Cache.set {V : Type} (c : Cache V) (now : Nat) (key : String) (value : V) :
    Cache V :=
  { c with data := (key, ⟨value, now + c.ttl⟩) :: c.data.filter (fun p => p.1 != key) }

/-- Embeds `Cache.Clear`: drop every entry. -/
def Cache.clear {V : Type} (c : Cache V) : Cache V := { c with data := [] }

/-! ## Caching resource-service wrapper (main.go, cachedResourceService) -/

/-- The cache key `"<activeProfile>|<service>|<region>"` (lower-cased
service and region).  `activeId = none` models a nil profile manager and
`some ""` an empty active id; both fall back to `system`. -/
def resourceCacheKey (activeId : Option String) (service region : String) : String :=
  let activeProfile :=
    match activeId with
    | some id => if id ≠ "" then id else "system"
    | none => "system"
  activeProfile ++ "|" ++ lowerStr service ++ "|" ++ lowerStr region

/-- Embeds `cachedResourceService.GetResources`: serve a fresh cache hit directly;
on a miss consult the inner service, returning the zero value plus the error
on failure (cache untouched) and caching the result on success.  The final
component is the cache state after the call. -/
def cachedGetResources (inner : String → String → ServiceResources × Option String)
    (activeId : Option String) (c : Cache ServiceResources) (now : Nat)
    (service region : String) :
    (ServiceResources × Option String) × Cache ServiceResources :=
  let key := resourceCacheKey activeId service region
  match c.get now key with
  | some cached => ((cached, none), c)
  | none =>
      match inner service region with
      | (_, some e) => ((emptySR, some e), c)
      | (res, none) => ((res, none), c.set now key res)

/-! ## Cost derivation (main.go, fetchRecordTypeTotals / fetchFromAWS) -/

/-- The `UnblendedCost` metric of one Cost Explorer group: the amount as
parsed by `strconv.ParseFloat` (`none` models an unparseable string) and the
currency unit. -/
structure CeMetric where
  amount : Option ℚ := none
  unit : String := ""
deriving DecidableEq

/-- One group of a `RECORD_TYPE`-grouped Cost Explorer response;
`unblendedCost = none` models a group whose `Metrics` map lacks the
`UnblendedCost` key. -/
structure CeGroup where
  keys : List String := []
  unblendedCost : Option CeMetric := none
deriving DecidableEq

/-- The accumulation loop of `fetchRecordTypeTotals`: groups with no key, a
missing metric or an unparseable amount are skipped; `usage` amounts add to
the usage total; `credit` amounts add their absolute value to the credits
total (negative amounts are negated); the currency follows the last parsed
group. -/
def recordTypeLoop : List CeGroup → ℚ → ℚ → String → ℚ × ℚ × String
  | [], usage, credits, currency => (usage, credits, currency)
  | g :: rest, usage, credits, currency =>
    match g.keys with
    | [] => recordTypeLoop rest usage credits currency
    | k :: _ =>
      match g.unblendedCost with
      | none => recordTypeLoop rest usage credits currency
      | some m =>
        match m.amount with
        | none => recordTypeLoop rest usage credits currency
        | some amount =>
          let currency := m.unit
          let recordType := lowerStr k
          if recordType = "usage" then
            recordTypeLoop rest (usage + amount) credits currency
          else if recordType = "credit" then
            if amount < 0 then recordTypeLoop rest usage (credits + (-amount)) currency
            else recordTypeLoop rest usage (credits + amount) currency
          else recordTypeLoop rest usage credits currency

/-- Embeds `fetchRecordTypeTotals` on an already-parsed group list: accumulators
start at zero with currency `USD`. -/
def fetchRecordTypeTotals (groups : List CeGroup) : ℚ × ℚ × String :=
  recordTypeLoop groups 0 0 "USD"

/-- The net-total derivation in `fetchFromAWS`: `usageTotal - creditsApplied`,
replaced by exactly zero when its absolute value is below `0.0000001`. -/
def deriveNetTotal (usageTotal creditsApplied : ℚ) : ℚ :=
  let netTotal := usageTotal - creditsApplied
  if |netTotal| < 1 / 10000000 then 0 else netTotal

/-- The amount a group contributes to the spec-side usage total: its parsed
amount when its key is (case-insensitively) `usage`, zero otherwise. -/
def usageContrib (g : CeGroup) : ℚ :=
  match g.keys, g.unblendedCost with
  | k :: _, some m =>
      match m.amount with
      | some a => if lowerStr k = "usage" then a else 0
      | none => 0
  | _, _ => 0

/-- The amount a group contributes to the spec-side credits total: the
absolute value of its parsed amount when its key is (case-insensitively)
`credit`, zero otherwise. -/
def creditContrib (g : CeGroup) : ℚ :=
  match g.keys, g.unblendedCost with
  | k :: _, some m =>
      match m.amount with
      | some a => if lowerStr k = "credit" then |a| else 0
      | none => 0
  | _, _ => 0

/-- Restatement of the spec for comparison with `fetchRecordTypeTotals`:
the usage total is the sum of the amounts whose group key is
(case-insensitively) `usage`. -/
def specUsageTotal (groups : List CeGroup) : ℚ :=
  (groups.map usageContrib).sum

/-- Restatement of the spec for comparison with `fetchRecordTypeTotals`:
the credits applied are the sum of the absolute values of the amounts whose
group key is (case-insensitively) `credit`. -/
def specCreditsApplied (groups : List CeGroup) : ℚ :=
  (groups.map creditContrib).sum

/-! ## HTTP surface (internal/httpserver/server.go) -/

/-- The JSON body written by a resource-surface handler: a
`types.ServiceResources` payload, an `errorResponse{Error, Details}` body
(empty details model the omitted field), or a
`types.ResourcesSummaryResponse` body. -/
inductive RespBody where
  | resourcesBody (r : ServiceResources)
  | errorBody (error details : String)
  | summaryBody (summaries : List ResourceSummary)
deriving DecidableEq

/-- Embeds `handleServiceResources` for a GET request with URL path `path` and
region query parameter `region`, given the resource service `getRes`:
strip the `/api/services/` prefix, validate the service-slash-resources
shape, then answer 200 with the resources on success and 500 with
an error-details JSON body on failure. -/
def handleServiceResources (getRes : String → String → ServiceResources × Option String)
    (path region : String) : Nat × RespBody :=
  let p := dropPrefixStr "/api/services/" path
  if p = "" then (400, .errorBody "Service name is required" "")
  else
    let parts := splitOnSlash (trimSlashes p)
    if parts.length < 2 ∨ parts.getD 1 "" ≠ "resources" then (404, .errorBody "Not found" "")
    else
      let service := parts.getD 0 ""
      match getRes service region with
      | (_, some e) => (500, .errorBody "Failed to fetch resources" e)
      | (res, none) => (200, .resourcesBody res)

/-- One entry of the fixed `servicesToCheck` table in
`handleResourcesSummary`. -/
structure SvcDef where
  key : String := ""
  displayName : String := ""
  resourceKey : String := ""
deriving DecidableEq

/-- The fixed `servicesToCheck` table. -/
def servicesToCheck : List SvcDef :=
  [⟨"ec2", "EC2", "ec2Instances"⟩,
   ⟨"vpc", "VPC", "vpcs"⟩,
   ⟨"eip", "Elastic IPs", "elasticIps"⟩,
   ⟨"s3", "S3", "s3Buckets"⟩,
   ⟨"rekognition", "Rekognition", "rekognitionCollections"⟩,
   ⟨"rds", "RDS", "rdsInstances"⟩]

/-- The per-service count switch of `handleResourcesSummary`. -/
def summaryCount (resourceKey : String) (res : ServiceResources) : Nat :=
  match resourceKey with
  | "ec2Instances" => res.ec2.length
  | "vpcs" => res.vpcs.length
  | "elasticIps" => res.elasticIps.length
  | "s3Buckets" => res.s3Buckets.length
  | "rekognitionCollections" => res.rekognitionCollections.length
  | "rdsInstances" => res.rdsInstances.length
  | _ => 0

/-- Embeds `handleResourcesSummary`: one aggregator call per supported kind with
region selector `all` (`arrival` is the channel completion order, a
permutation of `servicesToCheck`); kinds whose call failed are logged and
skipped, and the response is always 200 with the counts of the kinds that
succeeded. -/
def handleResourcesSummary (getRes : String → String → ServiceResources × Option String)
    (arrival : List SvcDef) : Nat × RespBody :=
  let summaries := arrival.filterMap fun svc =>
    match getRes svc.key "all" with
    | (_, some _) => none
    | (res, none) =>
        some ⟨svc.key, svc.displayName, svc.resourceKey, summaryCount svc.resourceKey res⟩
  (200, .summaryBody summaries)

/-! ## Worker-pool semaphore model (main.go, getEC2InstancesAllRegions) -/

/-- The fixed concurrency cap (`const maxConcurrent = 5`). -/
def maxConcurrent : Nat := 5

/-- An abstract snapshot of the worker pool of one all-regions aggregation:
how many per-region workers have not yet acquired a semaphore slot, how many
hold a slot with their executor call in flight, and how many have released
their slot and completed. -/
structure PoolState where
  pending : Nat
  inFlight : Nat
  finished : Nat
deriving DecidableEq

/-- One step of the worker pool.  `acquire` models `sem <- struct{}{}`:
it can fire only while fewer than `maxConcurrent` slots are held, and the
executor call of that worker then counts as in flight.  `release` models the
deferred `<-sem` after the call returns. -/
inductive PoolStep : PoolState → PoolState → Prop where
  | acquire (s : PoolState) (hp : 0 < s.pending) (hsem : s.inFlight < maxConcurrent) :
      PoolStep s ⟨s.pending - 1, s.inFlight + 1, s.finished⟩
  | release (s : PoolState) (hf : 0 < s.inFlight) :
      PoolStep s ⟨s.pending, s.inFlight - 1, s.finished + 1⟩

/-- Pool states reachable from the launch of `n` per-region workers. -/
inductive PoolReach (n : Nat) : PoolState → Prop where
  | init : PoolReach n ⟨n, 0, 0⟩
  | step {s t : PoolState} : PoolReach n s → PoolStep s t → PoolReach n t

/-! ## Concrete fixtures used to instantiate the theorems -/

/-- Raw `describe-instances` payload for `us-east-1` (two instances). -/
def fixtureRawEast : Ec2DescribeInstancesOutput :=
  ⟨[⟨[{ instanceId := "i-a1", instanceType := "t3.micro",
        state := ⟨"running"⟩, placement := ⟨"us-east-1a"⟩,
        tags := [⟨"Name", "web-1"⟩] },
      { instanceId := "i-a2", instanceType := "t3.small",
        state := ⟨"stopped"⟩, placement := ⟨"us-east-1b"⟩ }]⟩]⟩

/-- Raw `describe-instances` payload for `us-west-2` (three instances). -/
def fixtureRawWest : Ec2DescribeInstancesOutput :=
  ⟨[⟨[{ instanceId := "i-b1", instanceType := "m5.large",
        state := ⟨"running"⟩, placement := ⟨"us-west-2a"⟩ }]⟩,
    ⟨[{ instanceId := "i-b2", instanceType := "t3.nano",
        state := ⟨"running"⟩, placement := ⟨"us-west-2b"⟩ },
      { instanceId := "i-b3", instanceType := "t3.nano",
        state := ⟨"pending"⟩, placement := ⟨"us-west-2b"⟩ }]⟩]⟩

/-- Executor fixture for the skippable-aggregation scenario: three regions,
`us-east-1` and `us-west-2` succeed, `eu-west-1` fails with an
`AuthFailure` message. -/
def execSkipFixture : ExecFn := fun args =>
  if args = ["ec2", "describe-regions", "--all-regions"] then
    .ok (.regionList ⟨[⟨"us-east-1", "opt-in-not-required"⟩,
                       ⟨"us-west-2", "opt-in-not-required"⟩,
                       ⟨"eu-west-1", "opted-in"⟩]⟩)
  else if args = ec2InstanceArgs "us-east-1" then .ok (.ec2Instances fixtureRawEast)
  else if args = ec2InstanceArgs "us-west-2" then .ok (.ec2Instances fixtureRawWest)
  else .error "An error occurred (AuthFailure) when calling the DescribeInstances operation"

/-- The per-region record lists produced by `execSkipFixture`. -/
def execSkipRecs (r : String) : List EC2Instance :=
  ec2Proj ((getEC2InstancesSingleRegion execSkipFixture r).1).1

/-- Executor fixture for the fail-fast scenario: two regions, `us-east-1`
succeeds and `eu-west-1` fails with a non-skippable message. -/
def execFatalFixture : ExecFn := fun args =>
  if args = ["ec2", "describe-regions", "--all-regions"] then
    .ok (.regionList ⟨[⟨"us-east-1", "opt-in-not-required"⟩,
                       ⟨"eu-west-1", "opted-in"⟩]⟩)
  else if args = ec2InstanceArgs "us-east-1" then .ok (.ec2Instances fixtureRawEast)
  else .error "internal server error"

/-- Executor fixture that fails every call. -/
def execAlwaysFails : ExecFn := fun _ => .error "connection refused by proxy"

/-- Executor fixture for the Rekognition projection: three collection ids
but only one face model version. -/
def execRekognitionFixture : ExecFn := fun args =>
  if args = rekognitionArgs "us-east-1" then
    .ok (.rekognitionCollections ⟨["faces-a", "faces-b", "faces-c"], ["6.0"]⟩)
  else .error "unexpected call"

/-- Inner resource service that always fails (cached-wrapper fixture). -/
def innerAlwaysFails : String → String → ServiceResources × Option String :=
  fun _ _ => (emptySR, some "exit status 255")

/-- Resource service fixture in which the `ec2` aggregation fails fatally
and every other kind succeeds with no records. -/
def summaryFailingRS : String → String → ServiceResources × Option String :=
  fun service _ =>
    if service = "ec2" then (emptySR, some "internal server error")
    else ({ service := service }, none)

/-! ## Helper lemmas -/

theorem drainResults_ok {α : Type} (proj : ServiceResources → List α)
    (outcome : String → ServiceResources × Option String)
    (S : List String) (recs : String → List α) (errOf : String → String)
    (l : List String)
    (hok : ∀ r ∈ l, S.contains r = false →
      (outcome r).2 = none ∧ proj (outcome r).1 = recs r)
    (hbad : ∀ r ∈ l, S.contains r = true →
      (outcome r).2 = some (errOf r) ∧ isAuthError (some (errOf r)) = true) :
    ∀ acc skipped,
      drainResults proj (l.map fun r => (r, outcome r)) acc skipped
        = .ok (acc ++ (l.filter fun r => !S.contains r).flatMap recs,
               skipped ++ l.filter fun r => S.contains r) := by
  induction l with
  | nil => intro acc skipped; simp [drainResults]
  | cons r rest ih =>
    intro acc skipped
    have ihr := ih (fun x hx => hok x (List.mem_cons_of_mem _ hx))
                   (fun x hx => hbad x (List.mem_cons_of_mem _ hx))
    by_cases hSr : S.contains r = true
    · obtain ⟨he, hauth⟩ := hbad r (List.mem_cons_self _ _) hSr
      cases hor : outcome r with
      | mk res errOpt =>
        rw [hor] at he
        have he' : errOpt = some (errOf r) := he
        subst he'
        have hmem : r ∈ S := by simpa using hSr
        simp only [List.map_cons, hor, drainResults, hauth, if_true]
        rw [ihr]
        simp [List.filter_cons, hmem, List.append_assoc]
    · have hSr' : S.contains r = false := by simpa using hSr
      obtain ⟨he, hrec⟩ := hok r (List.mem_cons_self _ _) hSr'
      cases hor : outcome r with
      | mk res errOpt =>
        rw [hor] at he hrec
        have he' : errOpt = none := he
        have hrec' : proj res = recs r := hrec
        subst he'
        have hmem : r ∉ S := by simpa using hSr'
        simp only [List.map_cons, hor, drainResults]
        rw [ihr]
        simp [List.filter_cons, hmem, hrec', List.append_assoc]

theorem drainResults_error {α : Type} (proj : ServiceResources → List α)
    (outcome : String → ServiceResources × Option String)
    (pre : List String) (r₀ : String) (post : List String) (e₀ : String)
    (hpre : ∀ r ∈ pre, (outcome r).2 = none ∨ isAuthError (outcome r).2 = true)
    (h₀ : (outcome r₀).2 = some e₀)
    (hns : isAuthError (some e₀) = false) :
    ∀ acc skipped,
      drainResults proj ((pre ++ r₀ :: post).map fun r => (r, outcome r)) acc skipped
        = .error e₀ := by
  induction pre with
  | nil =>
    intro acc skipped
    cases hor : outcome r₀ with
    | mk res errOpt =>
      rw [hor] at h₀
      have he' : errOpt = some e₀ := h₀
      subst he'
      simp only [List.nil_append, List.map_cons, hor, drainResults]
      simp [hns]
  | cons r rest ih =>
    intro acc skipped
    have ihr := ih (fun x hx => hpre x (List.mem_cons_of_mem _ hx))
    cases hor : outcome r with
    | mk res errOpt =>
      rcases hpre r (List.mem_cons_self _ _) with hnone | hauth
      · rw [hor] at hnone
        have he' : errOpt = none := hnone
        subst he'
        simp only [List.cons_append, List.map_cons, hor, drainResults]
        exact ihr _ _
      · rw [hor] at hauth
        cases errOpt with
        | none =>
          simp only [List.cons_append, List.map_cons, hor, drainResults]
          exact ihr _ _
        | some e =>
          have hauth' : isAuthError (some e) = true := hauth
          simp only [List.cons_append, List.map_cons, hor, drainResults, hauth', if_true]
          exact ihr _ _

/-! ## Claim theorems -/

/-- Claim C3: for every non-nil error, the aggregator classifies it as
skippable exactly when the lower-cased message contains one of the four
fixed substrings (`authfailure`, `not able to validate the provided access
credentials`, `invalidclienttokenid`, `could not connect to the endpoint
url`); any other message content is non-skippable, and a nil error is never
skippable. -/
theorem isAuthError_characterisation (m : String) :
    (isAuthError (some m) = true ↔
      (containsSub (lowerStr m) "authfailure" = true ∨
       containsSub (lowerStr m) "not able to validate the provided access credentials" = true ∨
       containsSub (lowerStr m) "invalidclienttokenid" = true ∨
       containsSub (lowerStr m) "could not connect to the endpoint url" = true)) ∧
    isAuthError none = false := by
  constructor
  · simp only [isAuthError, Bool.or_eq_true]
    tauto
  · rfl

/-- Claim C4: in every reachable state of the worker pool of one
all-regions aggregation, at most `maxConcurrent = 5` per-region executor
calls are in flight; moreover the worker counts always total the spawned
count, so once all workers have finished none is pending or in flight (the
caller joins on completion of every call). -/
theorem pool_concurrency_invariant (n : Nat) (s : PoolState) (h : PoolReach n s) :
    s.inFlight ≤ maxConcurrent ∧
    s.pending + s.inFlight + s.finished = n ∧
    (s.finished = n → s.inFlight = 0 ∧ s.pending = 0) := by
  induction h with
  | init => exact ⟨by simp [maxConcurrent], by simp, fun h => ⟨rfl, h.symm⟩⟩
  | step _ hstep ih =>
    obtain ⟨ih₁, ih₂, _⟩ := ih
    cases hstep with
    | acquire hp hsem =>
      simp only [maxConcurrent] at *
      refine ⟨by omega, by omega, by omega⟩
    | release hf =>
      simp only [maxConcurrent] at *
      refine ⟨by omega, by omega, by omega⟩

/-- Witness for C4: the pool state after two acquisitions out of seven
spawned workers is reachable and satisfies the invariant. -/
theorem pool_concurrency_invariant_witness :
    (⟨5, 2, 0⟩ : PoolState).inFlight ≤ maxConcurrent ∧
    (⟨5, 2, 0⟩ : PoolState).pending + (⟨5, 2, 0⟩ : PoolState).inFlight +
      (⟨5, 2, 0⟩ : PoolState).finished = 7 ∧
    ((⟨5, 2, 0⟩ : PoolState).finished = 7 →
      (⟨5, 2, 0⟩ : PoolState).inFlight = 0 ∧ (⟨5, 2, 0⟩ : PoolState).pending = 0) :=
  pool_concurrency_invariant 7 ⟨5, 2, 0⟩
    (PoolReach.step (PoolReach.step PoolReach.init
      (PoolStep.acquire ⟨7, 0, 0⟩ (by decide) (by decide)))
      (PoolStep.acquire ⟨6, 1, 0⟩ (by decide) (by decide)))

/-- Claim C5: a cache read strictly within the TTL window after a `set`
returns the stored value; a read strictly after the TTL has elapsed returns
not-found (`none` models the Go `(zero, false)` result) even though the
entry is still physically present (reads never remove it); a full `clear`
makes every read miss. -/
theorem cache_ttl_semantics (V : Type) (c : Cache V) (key : String) (v : V)
    (t₀ t₁ t₂ : Nat) (h₀ : t₀ ≤ t₁) (h₁ : t₁ - t₀ < c.ttl) (h₂ : c.ttl < t₂ - t₀) :
    (c.set t₀ key v).get t₁ key = some v ∧
    (c.set t₀ key v).get t₂ key = none ∧
    (c.set t₀ key v).data.lookup key = some ⟨v, t₀ + c.ttl⟩ ∧
    ∀ t, ((c.set t₀ key v).clear).get t key = none := by
  have hlook : (c.set t₀ key v).data.lookup key = some ⟨v, t₀ + c.ttl⟩ := by
    simp [Cache.set, List.lookup]
  refine ⟨?_, ?_, hlook, ?_⟩
  · simp only [Cache.get, hlook]
    rw [if_neg (by omega)]
  · simp only [Cache.get, hlook]
    rw [if_pos (by omega)]
  · intro t
    simp [Cache.clear, Cache.get, List.lookup]

/-- Witness for C5 at a 60-second TTL: a read at 59 hits, a read at 61
misses, the entry is still stored, and a cleared cache misses. -/
theorem cache_ttl_semantics_witness :
    ((⟨[], 60⟩ : Cache Nat).set 0 "cost-and-services:system:a:b" 42).get 59
        "cost-and-services:system:a:b" = some 42 ∧
    ((⟨[], 60⟩ : Cache Nat).set 0 "cost-and-services:system:a:b" 42).get 61
        "cost-and-services:system:a:b" = none ∧
    ((⟨[], 60⟩ : Cache Nat).set 0 "cost-and-services:system:a:b" 42).data.lookup
        "cost-and-services:system:a:b" = some ⟨42, 0 + 60⟩ ∧
    ∀ t, (((⟨[], 60⟩ : Cache Nat).set 0 "cost-and-services:system:a:b" 42).clear).get t
        "cost-and-services:system:a:b" = none := by
  have h := cache_ttl_semantics Nat ⟨[], 60⟩ "cost-and-services:system:a:b" 42 0 59 61
    (by decide) (by decide) (by decide)
  exact ⟨h.1, h.2.1, by simpa using h.2.2.1, h.2.2.2⟩

/-- Claim C9: on a cache miss, when the inner resource service fails, the
caching wrapper returns the zero `ServiceResources` value together with
that error and leaves the cache state unchanged — only successful fetches
populate the cache. -/
theorem cachedGetResources_error_leaves_cache
    (inner : String → String → ServiceResources × Option String)
    (activeId : Option String) (c : Cache ServiceResources) (now : Nat)
    (service region : String) (res : ServiceResources) (e : String)
    (hmiss : c.get now (resourceCacheKey activeId service region) = none)
    (herr : inner service region = (res, some e)) :
    cachedGetResources inner activeId c now service region = ((emptySR, some e), c) := by
  simp [cachedGetResources, hmiss, herr]

/-- Witness for C9: an always-failing inner service against an empty cache
returns the error with the zero value and the cache still empty. -/
theorem cachedGetResources_error_leaves_cache_witness :
    cachedGetResources innerAlwaysFails none ⟨[], 60⟩ 0 "ec2" "all" =
      ((emptySR, some "exit status 255"), ⟨[], 60⟩) :=
  cachedGetResources_error_leaves_cache innerAlwaysFails none ⟨[], 60⟩ 0 "ec2" "all"
    emptySR "exit status 255" rfl rfl

/-- Claim C1: when exactly the regions in `S` fail with skippable errors
and every other enumerated region succeeds, the all-regions EC2 aggregation
succeeds; its record list is the union (up to the nondeterministic channel
completion order `arrival`) of the per-region record lists over the regions
outside `S`, and its message is empty (absent on the wire) when `S` is
empty and otherwise exactly the fixed prefix followed by the names of `S`
joined by comma-space. -/
theorem ec2AllRegions_skippable_aggregation
    (exec : ExecFn) (R arrival S : List String)
    (recs : String → List EC2Instance) (errOf : String → String)
    (hR : listRegions exec = .ok R)
    (hperm : arrival.Perm R)
    (hndR : R.Nodup) (hndS : S.Nodup) (hSR : ∀ s ∈ S, s ∈ R)
    (hok : ∀ r ∈ R, S.contains r = false →
      ((getEC2InstancesSingleRegion exec r).1).2 = none ∧
      ec2Proj ((getEC2InstancesSingleRegion exec r).1).1 = recs r)
    (hbad : ∀ r ∈ R, S.contains r = true →
      ((getEC2InstancesSingleRegion exec r).1).2 = some (errOf r) ∧
      isAuthError (some (errOf r)) = true) :
    ∃ skipped : List String,
      skipped.Perm S ∧
      getEC2InstancesAllRegions exec arrival =
        ({ service := "ec2",
           ec2 := (arrival.filter fun r => !S.contains r).flatMap recs,
           message := skipMessage skipped }, none) ∧
      ((arrival.filter fun r => !S.contains r).flatMap recs).Perm
        ((R.filter fun r => !S.contains r).flatMap recs) ∧
      (S = [] → skipMessage skipped = "") ∧
      (S ≠ [] → skipMessage skipped =
        "Skipped regions due to authentication errors: " ++
          String.intercalate ", " skipped) := by
  have hskPerm : (arrival.filter (fun r => S.contains r)).Perm S :=
    (hperm.filter _).trans
      ((List.perm_ext_iff_of_nodup (hndR.filter _) hndS).2 (by
        intro a
        simp only [List.mem_filter, List.elem_eq_mem, decide_eq_true_iff]
        exact ⟨fun h => h.2, fun h => ⟨hSR a h, h⟩⟩))
  refine ⟨arrival.filter (fun r => S.contains r), hskPerm, ?_, ?_, ?_, ?_⟩
  · simp only [getEC2InstancesAllRegions, hR]
    rw [drainResults_ok ec2Proj (fun r => (getEC2InstancesSingleRegion exec r).1)
      S recs errOf arrival
      (fun r hr => hok r (hperm.mem_iff.1 hr))
      (fun r hr => hbad r (hperm.mem_iff.1 hr)) [] []]
    simp
  · exact (hperm.filter _).flatMap_right recs
  · intro hS
    subst hS
    simp [skipMessage]
  · intro hS
    have hne : arrival.filter (fun r => S.contains r) ≠ [] := by
      intro h0
      exact hS (List.Perm.eq_nil (h0 ▸ hskPerm.symm))
    simp only [skipMessage]
    rw [if_pos (List.length_pos.2 hne)]

/-- Witness for C1: three regions, two succeed (2 and 3 instances), one
fails with an `AuthFailure` message; the aggregate merges the five records
and reports the one skipped region. -/
theorem ec2AllRegions_skippable_aggregation_witness :
    ∃ skipped : List String,
      skipped.Perm ["eu-west-1"] ∧
      getEC2InstancesAllRegions execSkipFixture ["us-east-1", "us-west-2", "eu-west-1"] =
        ({ service := "ec2",
           ec2 := (["us-east-1", "us-west-2", "eu-west-1"].filter
             fun r => !(["eu-west-1"].contains r)).flatMap execSkipRecs,
           message := skipMessage skipped }, none) ∧
      ((["us-east-1", "us-west-2", "eu-west-1"].filter
          fun r => !(["eu-west-1"].contains r)).flatMap execSkipRecs).Perm
        ((["us-east-1", "us-west-2", "eu-west-1"].filter
          fun r => !(["eu-west-1"].contains r)).flatMap execSkipRecs) ∧
      ((["eu-west-1"] : List String) = [] → skipMessage skipped = "") ∧
      ((["eu-west-1"] : List String) ≠ [] → skipMessage skipped =
        "Skipped regions due to authentication errors: " ++
          String.intercalate ", " skipped) :=
  ec2AllRegions_skippable_aggregation execSkipFixture
    ["us-east-1", "us-west-2", "eu-west-1"] ["us-east-1", "us-west-2", "eu-west-1"]
    ["eu-west-1"] execSkipRecs
    (fun _ => "An error occurred (AuthFailure) when calling the DescribeInstances operation")
    rfl (List.Perm.refl _) (by decide) (by decide) (by decide) (by decide) (by decide)

/-- Claim C2: when some per-region call fails with a non-skippable error,
the all-regions EC2 aggregation returns that error (the first one in
channel completion order) together with the zero `ServiceResources` value,
no matter how many other calls succeeded or were skippably skipped before
it. -/
theorem ec2AllRegions_failfast
    (exec : ExecFn) (R pre post arrival : List String) (r₀ e₀ : String)
    (hR : listRegions exec = .ok R)
    (harr : arrival = pre ++ r₀ :: post)
    (hperm : arrival.Perm R)
    (hpre : ∀ r ∈ pre, ((getEC2InstancesSingleRegion exec r).1).2 = none ∨
      isAuthError ((getEC2InstancesSingleRegion exec r).1).2 = true)
    (h₀ : ((getEC2InstancesSingleRegion exec r₀).1).2 = some e₀)
    (hns : isAuthError (some e₀) = false) :
    getEC2InstancesAllRegions exec arrival = (emptySR, some e₀) := by
  subst harr
  simp only [getEC2InstancesAllRegions, hR]
  rw [drainResults_error ec2Proj (fun r => (getEC2InstancesSingleRegion exec r).1)
    pre r₀ post e₀ hpre h₀ hns [] []]

/-- Witness for C2: two regions, the first succeeds with two instances and
the second fails with `internal server error`; the aggregation returns the
error and the zero value, discarding the successful partial results. -/
theorem ec2AllRegions_failfast_witness :
    getEC2InstancesAllRegions execFatalFixture ["us-east-1", "eu-west-1"] =
      (emptySR, some "internal server error") :=
  ec2AllRegions_failfast execFatalFixture ["us-east-1", "eu-west-1"]
    ["us-east-1"] [] ["us-east-1", "eu-west-1"] "eu-west-1" "internal server error"
    rfl rfl (List.Perm.refl _) (by decide) (by decide) (by decide)

/-- Claim C7: with a region selector that names one concrete region (not
the `all` sentinel and not empty), the EC2 fetch dispatches to the
single-region path, performs exactly one executor call with that region,
and propagates any failure of that call unchanged — no skippable-error
suppression happens at single-region granularity. -/
theorem ec2SingleRegion_one_call_propagates
    (exec : ExecFn) (arrival : List String) (region : String)
    (hall : lowerStr region ≠ "all") (hne : region ≠ "") :
    getEC2Instances exec arrival region = (getEC2InstancesSingleRegion exec region).1 ∧
    (getEC2InstancesSingleRegion exec region).2 =
      [["ec2", "describe-instances", "--region", region]] ∧
    ∀ e, exec ["ec2", "describe-instances", "--region", region] = .error e →
      (getEC2InstancesSingleRegion exec region).1 = (emptySR, some e) := by
  have hargs : ec2InstanceArgs region = ["ec2", "describe-instances", "--region", region] := by
    simp [ec2InstanceArgs, hne]
  refine ⟨?_, ?_, ?_⟩
  · simp [getEC2Instances, hall]
  · have h2 : (getEC2InstancesSingleRegion exec region).2 = [ec2InstanceArgs region] := by
      cases hx : exec (ec2InstanceArgs region) with
      | error e => simp [getEC2InstancesSingleRegion, hx]
      | ok o => cases o <;> simp [getEC2InstancesSingleRegion, hx]
    rw [h2, hargs]
  · intro e he
    rw [← hargs] at he
    simp [getEC2InstancesSingleRegion, he]

/-- Witness for C7: an executor whose every call fails; the single-region
fetch for `ap-south-1` makes the one expected call and returns the failure
unchanged. -/
theorem ec2SingleRegion_one_call_propagates_witness :
    getEC2Instances execAlwaysFails [] "ap-south-1" =
      (getEC2InstancesSingleRegion execAlwaysFails "ap-south-1").1 ∧
    (getEC2InstancesSingleRegion execAlwaysFails "ap-south-1").2 =
      [["ec2", "describe-instances", "--region", "ap-south-1"]] ∧
    ∀ e, execAlwaysFails ["ec2", "describe-instances", "--region", "ap-south-1"] = .error e →
      (getEC2InstancesSingleRegion execAlwaysFails "ap-south-1").1 = (emptySR, some e) :=
  ec2SingleRegion_one_call_propagates execAlwaysFails [] "ap-south-1"
    (by decide) (by decide)

/-- Claim C10: on a successfully parsed `list-collections` response, the
single-region Rekognition projection yields exactly one record per
collection id, pairing the i-th id with the i-th face model version when
`i` is within the bounds of the versions list and with the empty string
otherwise; the projection is total (getD-based indexing never goes out of
range) even when `FaceModelVersions` is shorter than `CollectionIds`. -/
theorem rekognition_projection_safe (exec : ExecFn) (region : String)
    (resp : RekognitionListCollectionsOutput)
    (h : exec (rekognitionArgs region) = .ok (.rekognitionCollections resp)) :
    ∃ cols : List RekognitionCollection,
      getRekognitionCollectionsSingleRegion exec region =
        (({ service := "rekognition", rekognitionCollections := cols }, none),
         [rekognitionArgs region]) ∧
      cols.length = resp.collectionIds.length ∧
      ∀ i, i < resp.collectionIds.length →
        cols.getD i {} =
          { collectionId := resp.collectionIds.getD i ""
            faceModelVersion :=
              if i < resp.faceModelVersions.length then resp.faceModelVersions.getD i ""
              else ""
            region := region } := by
  refine ⟨resp.collectionIds.enum.map fun p =>
    ({ collectionId := p.2
       faceModelVersion := resp.faceModelVersions.getD p.1 ""
       region := region } : RekognitionCollection), ?_, ?_, ?_⟩
  · simp [getRekognitionCollectionsSingleRegion, h]
  · simp
  · intro i hi
    rw [List.getD_eq_getElem?_getD, List.getElem?_map, List.getElem?_enum,
      List.getElem?_eq_getElem hi]
    by_cases hv : i < resp.faceModelVersions.length
    · simp [hv, List.getD_eq_getElem?_getD, List.getElem?_eq_getElem hi,
        List.getElem?_eq_getElem hv]
    · have hle : resp.faceModelVersions.length ≤ i := Nat.le_of_not_lt hv
      simp [hv, List.getD_eq_getElem?_getD, List.getElem?_eq_getElem hi,
        List.getElem?_eq_none hle]

/-- Witness for C10: three collection ids with a single face model version;
the projection pairs the first id with the version and the others with the
empty string. -/
theorem rekognition_projection_safe_witness :
    ∃ cols : List RekognitionCollection,
      getRekognitionCollectionsSingleRegion execRekognitionFixture "us-east-1" =
        (({ service := "rekognition", rekognitionCollections := cols }, none),
         [rekognitionArgs "us-east-1"]) ∧
      cols.length = (["faces-a", "faces-b", "faces-c"] : List String).length ∧
      ∀ i, i < (["faces-a", "faces-b", "faces-c"] : List String).length →
        cols.getD i {} =
          { collectionId := (["faces-a", "faces-b", "faces-c"] : List String).getD i ""
            faceModelVersion :=
              if i < (["6.0"] : List String).length then (["6.0"] : List String).getD i ""
              else ""
            region := "us-east-1" } :=
  rekognition_projection_safe execRekognitionFixture "us-east-1"
    ⟨["faces-a", "faces-b", "faces-c"], ["6.0"]⟩ rfl

theorem specUsageTotal_cons (g : CeGroup) (rest : List CeGroup) :
    specUsageTotal (g :: rest) = usageContrib g + specUsageTotal rest := by
  simp [specUsageTotal]

theorem specCreditsApplied_cons (g : CeGroup) (rest : List CeGroup) :
    specCreditsApplied (g :: rest) = creditContrib g + specCreditsApplied rest := by
  simp [specCreditsApplied]

theorem recordTypeLoop_totals (gs : List CeGroup) :
    ∀ (u c : ℚ) (cur : String),
      (recordTypeLoop gs u c cur).1 = u + specUsageTotal gs ∧
      (recordTypeLoop gs u c cur).2.1 = c + specCreditsApplied gs := by
  induction gs with
  | nil =>
    intro u c cur
    simp [recordTypeLoop, specUsageTotal, specCreditsApplied]
  | cons g rest ih =>
    intro u c cur
    rw [specUsageTotal_cons, specCreditsApplied_cons]
    obtain ⟨ks, mc⟩ := g
    cases ks with
    | nil =>
      obtain ⟨ih₁, ih₂⟩ := ih u c cur
      simp only [recordTypeLoop, usageContrib, creditContrib]
      exact ⟨by rw [ih₁]; ring, by rw [ih₂]; ring⟩
    | cons k ktail =>
      cases mc with
      | none =>
        obtain ⟨ih₁, ih₂⟩ := ih u c cur
        simp only [recordTypeLoop, usageContrib, creditContrib]
        exact ⟨by rw [ih₁]; ring, by rw [ih₂]; ring⟩
      | some m =>
        obtain ⟨ma, munit⟩ := m
        cases ma with
        | none =>
          obtain ⟨ih₁, ih₂⟩ := ih u c cur
          simp only [recordTypeLoop, usageContrib, creditContrib]
          exact ⟨by rw [ih₁]; ring, by rw [ih₂]; ring⟩
        | some a =>
          simp only [recordTypeLoop, usageContrib, creditContrib]
          by_cases hu : lowerStr k = "usage"
          · have hnc : ¬lowerStr k = "credit" := by
              rw [hu]; decide
            obtain ⟨ih₁, ih₂⟩ := ih (u + a) c munit
            rw [if_pos hu, if_pos hu, if_neg hnc]
            exact ⟨by rw [ih₁]; ring, by rw [ih₂]; ring⟩
          · by_cases hc : lowerStr k = "credit"
            · rw [if_neg hu, if_pos hc, if_neg hu, if_pos hc]
              by_cases ha : a < 0
              · obtain ⟨ih₁, ih₂⟩ := ih u (c + -a) munit
                rw [if_pos ha]
                exact ⟨by rw [ih₁]; ring,
                  by rw [ih₂, abs_of_neg ha]; ring⟩
              · obtain ⟨ih₁, ih₂⟩ := ih u (c + a) munit
                rw [if_neg ha]
                exact ⟨by rw [ih₁]; ring,
                  by rw [ih₂, abs_of_nonneg (le_of_not_lt ha)]; ring⟩
            · obtain ⟨ih₁, ih₂⟩ := ih u c munit
              rw [if_neg hu, if_neg hc, if_neg hu, if_neg hc]
              exact ⟨by rw [ih₁]; ring, by rw [ih₂]; ring⟩

/-- Claim C6: the record-type cost derivation sums exactly the amounts whose
group key is case-insensitively `usage` into the usage total and the
absolute values of the amounts whose key is `credit` into the credits
applied; the net total is usage minus credits, replaced by exactly zero
when its absolute value is below `1e-7`; in particular usage `120.00` and
credit `-15.00` yield usage `120.00`, credits `15.00` and net `105.00`. -/
theorem costTotals_characterisation :
    (∀ gs : List CeGroup, (fetchRecordTypeTotals gs).1 = specUsageTotal gs) ∧
    (∀ gs : List CeGroup, (fetchRecordTypeTotals gs).2.1 = specCreditsApplied gs) ∧
    (∀ u c : ℚ, |u - c| < 1 / 10000000 → deriveNetTotal u c = 0) ∧
    (∀ u c : ℚ, ¬(|u - c| < 1 / 10000000) → deriveNetTotal u c = u - c) ∧
    fetchRecordTypeTotals
      [⟨["Usage"], some ⟨some 120, "USD"⟩⟩, ⟨["Credit"], some ⟨some (-15), "USD"⟩⟩] =
      (120, 15, "USD") ∧
    deriveNetTotal 120 15 = 105 := by
  refine ⟨?_, ?_, ?_, ?_, ?_, ?_⟩
  · intro gs
    have h := (recordTypeLoop_totals gs 0 0 "USD").1
    simpa [fetchRecordTypeTotals] using h
  · intro gs
    have h := (recordTypeLoop_totals gs 0 0 "USD").2
    simpa [fetchRecordTypeTotals] using h
  · intro u c h
    simp only [deriveNetTotal]
    rw [if_pos h]
  · intro u c h
    simp only [deriveNetTotal]
    rw [if_neg h]
  · have husage : lowerStr "Usage" = "usage" := by decide
    have hcredit : lowerStr "Credit" = "credit" := by decide
    have hcu : ¬lowerStr "Credit" = "usage" := by decide
    have hcu₂ : ¬("credit" : String) = "usage" := by decide
    have hneg : ((-15 : ℚ) < 0) := by norm_num
    simp only [fetchRecordTypeTotals, recordTypeLoop, husage, hcredit, hcu, hcu₂, hneg,
      eq_self_iff_true, if_true, if_false]
    norm_num
  · have h : ¬(|(120 : ℚ) - 15| < 1 / 10000000) := by
      rw [show (120 : ℚ) - 15 = 105 by norm_num,
        abs_of_pos (by norm_num : (0 : ℚ) < 105)]
      norm_num
    simp only [deriveNetTotal]
    rw [if_neg h]
    norm_num

/-- Witness for C6: instantiates the two clamp branches of the net-total
derivation at concrete rational inputs. -/
theorem costTotals_characterisation_witness :
    deriveNetTotal 120 (120 - 1 / 100000000) = 0 ∧
    deriveNetTotal 120 15 = 105 :=
  ⟨costTotals_characterisation.2.2.1 120 (120 - 1 / 100000000) (by
      rw [show (120 : ℚ) - (120 - 1 / 100000000) = 1 / 100000000 by ring,
        abs_of_pos (by norm_num : (0 : ℚ) < 1 / 100000000)]
      norm_num),
   costTotals_characterisation.2.2.2.2.2⟩

/-- Counterexample to C8 as stated: with a resource service whose `ec2`
aggregation fails fatally (a non-skippable error), the summary endpoint
does not answer 500 — it answers 200, silently dropping the failed kind
and keeping the counts of the five kinds that succeeded. -/
theorem resourcesSummary_not_500_on_failure :
    (summaryFailingRS "ec2" "all").2 = some "internal server error" ∧
    isAuthError (some "internal server error") = false ∧
    handleResourcesSummary summaryFailingRS servicesToCheck =
      (200, .summaryBody
        [⟨"vpc", "VPC", "vpcs", 0⟩,
         ⟨"eip", "Elastic IPs", "elasticIps", 0⟩,
         ⟨"s3", "S3", "s3Buckets", 0⟩,
         ⟨"rekognition", "Rekognition", "rekognitionCollections", 0⟩,
         ⟨"rds", "RDS", "rdsInstances", 0⟩]) ∧
    (handleResourcesSummary summaryFailingRS servicesToCheck).1 ≠ 500 := by
  refine ⟨rfl, by decide, by decide, by decide⟩

/-- Claim C8 (amended): the GET endpoint for per-service resources answers 200
with the resources body on success and 500 with the error-details
body when the aggregation fails fatally; the GET resources-summary endpoint
invokes the aggregator once per supported kind and always answers 200,
skipping the kinds whose aggregation failed instead of failing the
response. -/
theorem resources_http_codes
    (getRes : String → String → ServiceResources × Option String)
    (path region service : String) (rest : List String)
    (hparts : splitOnSlash (trimSlashes (dropPrefixStr "/api/services/" path)) =
      service :: "resources" :: rest) :
    (∀ res, getRes service region = (res, none) →
      handleServiceResources getRes path region = (200, .resourcesBody res)) ∧
    (∀ res e, getRes service region = (res, some e) →
      handleServiceResources getRes path region =
        (500, .errorBody "Failed to fetch resources" e)) ∧
    ∀ arrival, (handleResourcesSummary getRes arrival).1 = 200 := by
  have hp : dropPrefixStr "/api/services/" path ≠ "" := by
    intro hp0
    rw [hp0] at hparts
    have h0 : splitOnSlash (trimSlashes "") = [""] := rfl
    rw [h0] at hparts
    injection hparts with h1 h2
    exact List.noConfusion h2
  have hlen : ¬(splitOnSlash (trimSlashes (dropPrefixStr "/api/services/" path))).length < 2 := by
    rw [hparts]
    simp
  have hget1 : (splitOnSlash (trimSlashes (dropPrefixStr "/api/services/" path))).getD 1 "" =
      "resources" := by
    rw [hparts]; rfl
  have hget0 : (splitOnSlash (trimSlashes (dropPrefixStr "/api/services/" path))).getD 0 "" =
      service := by
    rw [hparts]; rfl
  have hcond : ¬((splitOnSlash (trimSlashes (dropPrefixStr "/api/services/" path))).length < 2 ∨
      (splitOnSlash (trimSlashes (dropPrefixStr "/api/services/" path))).getD 1 "" ≠
        "resources") := by
    push_neg
    exact ⟨Nat.le_of_not_lt hlen, hget1⟩
  refine ⟨?_, ?_, ?_⟩
  · intro res hres
    simp only [handleServiceResources]
    rw [if_neg hp, if_neg hcond, hget0, hres]
  · intro res e hres
    simp only [handleServiceResources]
    rw [if_neg hp, if_neg hcond, hget0, hres]
  · intro arrival
    rfl

/-- Witness for the amended C8: against the fixture whose `ec2` aggregation
fails, the per-service endpoint answers 500 with the details while the
summary endpoint answers 200. -/
theorem resources_http_codes_witness :
    handleServiceResources summaryFailingRS "/api/services/ec2/resources" "all" =
      (500, .errorBody "Failed to fetch resources" "internal server error") ∧
    (handleResourcesSummary summaryFailingRS servicesToCheck).1 = 200 :=
  ⟨(resources_http_codes summaryFailingRS "/api/services/ec2/resources" "all"
      "ec2" [] (by decide)).2.1 emptySR "internal server error" rfl,
   (resources_http_codes summaryFailingRS "/api/services/ec2/resources" "all"
      "ec2" [] (by decide)).2.2 servicesToCheck⟩

end AwsWeb
